import Mathlib

set_option maxHeartbeats 1000000
set_option maxRecDepth 16384
set_option exponentiation.threshold 1200

/-!
Shallow embedding of the `Luzifer/ediplug_ctrl` repository: the `ediplug`
protocol package (`ediplug/commands.go`) and the HTTP handler layer
(`main.go`).  External collaborators (Go's `time.Parse`, `strconv.ParseFloat`,
`encoding/xml`, the HTTP client and the backoff library) are modelled with
explicit Lean functions; request/response bodies are modelled at the level of
the XML element tree produced by `encoding/xml`'s tokenizer, with an explicit
case for bodies the tokenizer rejects (an empty body yields `io.EOF`, any
other malformed body a syntax error).
-/

namespace Ediplug

/-! ### Characters and digits -/

/-- Decimal digit test, modelling the byte-range test `'0' <= c && c <= '9'`
used by Go's `time` and `strconv` packages. -/
def isDecDigit (c : Char) : Bool := decide (48 ≤ c.toNat) && decide (c.toNat ≤ 57)

/-- Numeric value of a decimal digit character. -/
def digitVal (c : Char) : ℕ := c.toNat - 48

/-- Hexadecimal digit test (`0-9a-fA-F`). -/
def isHexDigit (c : Char) : Bool :=
  isDecDigit c || (decide (97 ≤ c.toLower.toNat) && decide (c.toLower.toNat ≤ 102))

/-- Numeric value of a hexadecimal digit character. -/
def hexVal (c : Char) : ℕ := if isDecDigit c then digitVal c else c.toLower.toNat - 87

/-! ### Error taxonomy

Models the error values that can travel out of the Go functions under
consideration: `io.EOF` (from `Decode` on an empty body), XML syntax or
unmarshal errors, `strconv` number errors wrapped by `encoding/xml`,
`time.Parse` errors, and network-level errors from `http.Client.Do`. -/

inductive GoError where
  | eof
  | badXml (msg : String)
  | numErr (text : String)
  | timeErr (value : String)
  | transport (msg : String)
deriving DecidableEq

/-! ### Go float64 values

The model keeps the exact rational read from the text; the real code rounds
it to the nearest IEEE-754 double.  No theorem in this file depends on the
rounded magnitude, only on parse success/failure and on comparison with zero,
both of which rounding preserves: a nonzero value that would round to zero or
to infinity makes `strconv.ParseFloat` report `ErrRange`, which `encoding/xml`
propagates as a decode error, and is modelled as parse failure below. -/

inductive GoFloat where
  | finite (q : ℚ)
  | posInf
  | negInf
  | nan
deriving DecidableEq

/-- The zero value of a Go `float64` field. -/
def GoFloat.zero : GoFloat := .finite 0

/-- The `omitempty` emptiness test for a `float64` field (`v.Float() == 0`). -/
def GoFloat.isZero : GoFloat → Bool
  | .finite q => decide (q = 0)
  | _ => false

/-! ### strconv.ParseFloat -/

/-- Case-folded character list. -/
def lowerChars (cs : List Char) : List Char := cs.map Char.toLower

/-- Special values recognised by `strconv.ParseFloat` (case-insensitive
`NaN`, signed or unsigned `Inf` / `Infinity`). -/
def parseFloatSpecial (cs : List Char) : Option GoFloat :=
  let l := lowerChars cs
  if l = "nan".data then some .nan
  else if l = "inf".data ∨ l = "infinity".data ∨ l = "+inf".data ∨ l = "+infinity".data then
    some .posInf
  else if l = "-inf".data ∨ l = "-infinity".data then some .negInf
  else none

/-- Digit-separating underscores: every underscore must sit between two digit
characters of the number's base.  This is Go's literal underscore discipline;
Go additionally allows an underscore directly after the `0x` base prefix, a
corner this model rejects (no claim depends on it). -/
def underscoresBetween (dig : Char → Bool) : List Char → Bool
  | c1 :: c2 :: rest =>
      (if c2 = '_' then dig c1 && (match rest with | c3 :: _ => dig c3 | [] => false) else true)
        && underscoresBetween dig (c2 :: rest)
  | _ => true

/-- Underscore validity for the whole token (also rejects a leading
underscore). -/
def underscoresOK (dig : Char → Bool) (cs : List Char) : Bool :=
  (match cs with | '_' :: _ => false | _ => true) && underscoresBetween dig cs

/-- Drop the underscores before numeric scanning. -/
def stripUnderscores (cs : List Char) : List Char := cs.filter (fun c => c != '_')

/-- Scan a maximal run of digits in the given base, returning their value,
their count and the unconsumed rest. -/
def scanDigits (dig : Char → Bool) (base : ℕ) : List Char → ℕ × ℕ × List Char
  | [] => (0, 0, [])
  | c :: rest =>
    if dig c then
      let (v, n, r) := scanDigits dig base rest
      (hexVal c * base ^ n + v, n + 1, r)
    else (0, 0, c :: rest)

/-- Scan a mantissa: digits with at most one interior point, at least one
digit overall.  Returns the scaled integer value, the number of digits after
the point and the unconsumed rest. -/
def parseMantissa (dig : Char → Bool) (base : ℕ) (cs : List Char) :
    Option (ℕ × ℕ × List Char) :=
  let (v1, n1, r1) := scanDigits dig base cs
  match r1 with
  | '.' :: r2 =>
    let (v2, n2, r3) := scanDigits dig base r2
    if n1 + n2 = 0 then none else some (v1 * base ^ n2 + v2, n2, r3)
  | _ => if n1 = 0 then none else some (v1, 0, r1)

/-- Scan a decimal exponent (optional sign, at least one digit, nothing
after it). -/
def parseExponent (cs : List Char) : Option (Bool × ℕ) :=
  let (sgn, r) := match cs with
    | '+' :: r => (false, r)
    | '-' :: r => (true, r)
    | r => (false, r)
  let (v, n, r2) := scanDigits isDecDigit 10 r
  if n = 0 ∨ r2 ≠ [] then none else some (sgn, v)

/-- Decimal tail of `ParseFloat` (after the optional sign): mantissa with an
optional `e`/`E` exponent.  The magnitude is returned as an exact
numerator/denominator pair of naturals. -/
def parseDecTail (cs : List Char) : Option (ℕ × ℕ) :=
  match parseMantissa isDecDigit 10 cs with
  | none => none
  | some (m, frac, r) =>
    match r with
    | [] => some (m, 10 ^ frac)
    | e :: r2 =>
      if e = 'e' ∨ e = 'E' then
        match parseExponent r2 with
        | none => none
        | some (false, ev) => some (m * 10 ^ ev, 10 ^ frac)
        | some (true, ev) => some (m, 10 ^ frac * 10 ^ ev)
      else none

/-- Hexadecimal tail of `ParseFloat` (after the sign and the `0x` prefix):
hex mantissa with a mandatory `p`/`P` binary exponent. -/
def parseHexTail (cs : List Char) : Option (ℕ × ℕ) :=
  match parseMantissa isHexDigit 16 cs with
  | none => none
  | some (m, frac, r) =>
    match r with
    | p :: r2 =>
      if p = 'p' ∨ p = 'P' then
        match parseExponent r2 with
        | none => none
        | some (false, ev) => some (m * 2 ^ ev, 16 ^ frac)
        | some (true, ev) => some (m, 16 ^ frac * 2 ^ ev)
      else none
    | [] => none

/-- Syntax-level core of `strconv.ParseFloat` on an underscore-free token:
sign flag plus the exact magnitude as a numerator/denominator pair. -/
def parseFloatCore (cs : List Char) : Option (Bool × ℕ × ℕ) :=
  let (neg, r0) := match cs with
    | '+' :: r => (false, r)
    | '-' :: r => (true, r)
    | r => (false, r)
  match (match r0 with
         | '0' :: 'x' :: r1 => parseHexTail r1
         | '0' :: 'X' :: r1 => parseHexTail r1
         | _ => parseDecTail r0) with
  | none => none
  | some (num, den) => some (neg, num, den)

/-- Model of `strconv.ParseFloat(s, 64)` as used by `encoding/xml` to decode a
`float64` field: `none` models any returned error, whether a syntax error or
the `ErrRange` produced when the value rounds to infinity (magnitude at or
beyond `2^1024 - 2^970`, the rounding boundary above the largest double) or
underflows to zero (nonzero magnitude at or below `2^-1075`, half the
smallest subnormal).  The exact rational is kept in place of the rounded
double; see `GoFloat`. -/
def parseGoFloat (s : String) : Option GoFloat :=
  match parseFloatSpecial s.data with
  | some f => some f
  | none =>
    let cs := s.data
    let afterSign := match cs with
      | '+' :: r => r
      | '-' :: r => r
      | r => r
    let hex : Bool := match afterSign with
      | '0' :: c :: _ => c == 'x' || c == 'X'
      | _ => false
    let dig := if hex then isHexDigit else isDecDigit
    if underscoresOK dig cs then
      match parseFloatCore (stripUnderscores cs) with
      | none => none
      | some (neg, num, den) =>
        if num = 0 then some (.finite 0)
        else if (2 ^ 1024 - 2 ^ 970) * den ≤ num then none
        else if num * 2 ^ 1075 ≤ den then none
        else some (.finite (mkRat (if neg then -(num : ℤ) else (num : ℤ)) den))
    else none

/-! ### Whitespace trimming

`encoding/xml` trims the character data with `strings.TrimSpace` before
handing it to `strconv.ParseFloat`.  The model trims the ASCII whitespace
characters; Go additionally trims the non-ASCII Unicode spaces, which no claim
exercises. -/

/-- ASCII part of `unicode.IsSpace`. -/
def goIsSpace (c : Char) : Bool :=
  c = ' ' || c = '\t' || c = '\n' || c = '\r' || c = '\x0b' || c = '\x0c'

/-- Model of `strings.TrimSpace` (ASCII subset). -/
def goTrimSpace (s : String) : String :=
  ⟨((s.data.dropWhile goIsSpace).reverse.dropWhile goIsSpace).reverse⟩

/-! ### Go `time.Parse` with the fixed layout `"20060102150405"`

Both `GetEnergyCommand.Parse` and `GetSystemInfoCommand.Parse` call
`time.Parse("20060102150405", s)`.  For this layout Go's parser consumes, in
order: a 4-digit year (`stdLongYear`: at least four bytes, the first a digit,
`atoi` of the first four — hence four digits), a fixed 2-digit month, day,
minute and second (`getnum` with `fixed = true`: exactly two digits), and an
hour read by `getnum` with `fixed = false` (one digit, or two when the next
byte is also a digit).  Any text left over after the layout is exhausted is an
error, and after reading the fields Go validates the ranges: month 1–12, day
1–`daysIn(month, year)`, hour < 24, minute < 60, second < 60.  The resulting
`time.Time` (UTC, no zone in the layout) is modelled as the number of seconds
since 0000-01-01T00:00:00 in the proleptic Gregorian calendar — an affine
renaming of Go's internal instant, which is injective in exactly the same
way. -/

/-- Go `isLeap`: divisible by 4 and not by 100, or divisible by 400. -/
def isLeapYear (y : ℕ) : Bool :=
  decide (y % 4 = 0) && (decide (y % 100 ≠ 0) || decide (y % 400 = 0))

/-- Go's `daysBefore` table: cumulative days before the given month in a
non-leap year (index 13 gives the year length). -/
def daysBeforeMonth : ℕ → ℕ
  | 1 => 0
  | 2 => 31
  | 3 => 59
  | 4 => 90
  | 5 => 120
  | 6 => 151
  | 7 => 181
  | 8 => 212
  | 9 => 243
  | 10 => 273
  | 11 => 304
  | 12 => 334
  | _ => 365

/-- Go's `daysIn(m, year)`. -/
def daysInMonth (mo y : ℕ) : ℕ :=
  if mo = 2 then (if isLeapYear y then 29 else 28)
  else daysBeforeMonth (mo + 1) - daysBeforeMonth mo

/-- Number of leap years in `[0, y)` (year 0 is a leap year). -/
def leapsBefore (y : ℕ) : ℕ := (y + 3) / 4 - (y + 99) / 100 + (y + 399) / 400

/-- Days from 0000-01-01 to the first day of year `y`. -/
def daysToYear (y : ℕ) : ℕ := 365 * y + leapsBefore y

/-- Zero-based day of year of a calendar date. -/
def dayOfYear (y mo d : ℕ) : ℕ :=
  daysBeforeMonth mo + (if 2 < mo ∧ isLeapYear y = true then 1 else 0) + (d - 1)

/-- Days from 0000-01-01 to the given date. -/
def dayNumber (y mo d : ℕ) : ℕ := daysToYear y + dayOfYear y mo d

/-- Seconds from 0000-01-01T00:00:00 to the given date and time. -/
def tsInstant (y mo d h mi s : ℕ) : ℕ :=
  86400 * dayNumber y mo d + 3600 * h + 60 * mi + s

/-- The range validation performed by `time.Parse` after reading the six
fields. -/
def validFields (y mo d h mi s : ℕ) : Prop :=
  1 ≤ mo ∧ mo ≤ 12 ∧ 1 ≤ d ∧ d ≤ daysInMonth mo y ∧ h ≤ 23 ∧ mi ≤ 59 ∧ s ≤ 59

instance (y mo d h mi s : ℕ) : Decidable (validFields y mo d h mi s) := by
  unfold validFields; infer_instance

/-- Go `getnum` with `fixed = true` for a 2-digit layout element: exactly two
digits. -/
def getnum2 : List Char → Option (ℕ × List Char)
  | c1 :: c2 :: rest =>
    if isDecDigit c1 && isDecDigit c2 then some (10 * digitVal c1 + digitVal c2, rest)
    else none
  | _ => none

/-- Go `stdLongYear`: four digits (the first checked up front, the rest by
`atoi`). -/
def getnum4 : List Char → Option (ℕ × List Char)
  | c1 :: c2 :: c3 :: c4 :: rest =>
    if isDecDigit c1 && isDecDigit c2 && isDecDigit c3 && isDecDigit c4 then
      some (1000 * digitVal c1 + 100 * digitVal c2 + 10 * digitVal c3 + digitVal c4, rest)
    else none
  | _ => none

/-- Go `getnum` with `fixed = false` (the `"15"` hour element): one digit, or
two when the following byte is also a digit. -/
def getnum1or2 : List Char → Option (ℕ × List Char)
  | c1 :: c2 :: rest =>
    if isDecDigit c1 then
      if isDecDigit c2 then some (10 * digitVal c1 + digitVal c2, rest)
      else some (digitVal c1, c2 :: rest)
    else none
  | [c1] => if isDecDigit c1 then some (digitVal c1, []) else none
  | [] => none

/-- Sequential field consumption and range validation of
`time.Parse("20060102150405", ·)`; see the section comment. -/
def goParseTimestampChars (cs : List Char) : Option ℕ :=
  match getnum4 cs with
  | none => none
  | some (y, r1) =>
    match getnum2 r1 with
    | none => none
    | some (mo, r2) =>
      match getnum2 r2 with
      | none => none
      | some (d, r3) =>
        match getnum1or2 r3 with
        | none => none
        | some (h, r4) =>
          match getnum2 r4 with
          | none => none
          | some (mi, r5) =>
            match getnum2 r5 with
            | none => none
            | some (s, r6) =>
              if r6 = [] ∧ validFields y mo d h mi s then
                some (tsInstant y mo d h mi s)
              else none

/-- The timestamp parsing step shared by `GetEnergyCommand.Parse` and
`GetSystemInfoCommand.Parse`. -/
def goParseTimestamp (s : String) : Option ℕ := goParseTimestampChars s.data

/-- The zero value of a Go `time.Time` (0001-01-01T00:00:00 UTC) in the
instant encoding used here. -/
def goTimeZero : ℕ := tsInstant 1 1 1 0 0 0

/-! ### Spec-side timestamp format

Written from the specification's words, for comparison with the code-derived
parser: "a fixed 14-digit numeric string (`YYYYMMDDhhmmss`)" whose components
form a valid calendar date and time of day. -/

/-- A character list matches the spec's `YYYYMMDDhhmmss` format: exactly 14
decimal digits whose month, day, hour, minute and second components are in
range. -/
def matchesFormatChars : List Char → Bool
  | [a, b, c, d, e, f, g, h, i, j, k, l, m, n] =>
    [a, b, c, d, e, f, g, h, i, j, k, l, m, n].all isDecDigit &&
      (let y := 1000 * digitVal a + 100 * digitVal b + 10 * digitVal c + digitVal d
       let mo := 10 * digitVal e + digitVal f
       let dy := 10 * digitVal g + digitVal h
       let hr := 10 * digitVal i + digitVal j
       let mi := 10 * digitVal k + digitVal l
       let sec := 10 * digitVal m + digitVal n
       decide (1 ≤ mo) && decide (mo ≤ 12) && decide (1 ≤ dy)
         && decide (dy ≤ daysInMonth mo y) && decide (hr ≤ 23) && decide (mi ≤ 59)
         && decide (sec ≤ 59))
  | _ => false

/-- Spec-side predicate on strings: the input matches the fixed
`YYYYMMDDhhmmss` timestamp format. -/
def matchesTimestampFormat (s : String) : Bool := matchesFormatChars s.data

/-! ### XML documents

Request and response bodies are modelled at the level of the element tree
seen by `encoding/xml`: an element with a name, attributes and children, or
character data.  A body handed to `Decoder.Decode` is either empty (Go
returns `io.EOF`), malformed (Go returns a syntax error; this also stands for
a body in an undecodable charset) or a well-formed document with a single
root element.  The charset transcoding installed via
`charset.NewReaderLabel` happens below this level of abstraction. -/

inductive XNode where
  | elem (name : String) (attrs : List (String × String)) (children : List XNode)
  | text (content : String)

/-- A raw HTTP body as seen by the XML decoder. -/
inductive XmlBody where
  | empty
  | malformed
  | doc (name : String) (attrs : List (String × String)) (children : List XNode)

/-- Character data directly under an element (child elements are skipped,
matching `encoding/xml` unmarshalling into a string field). -/
def chardata (children : List XNode) : String :=
  children.foldl (fun acc n => match n with | .text s => acc ++ s | .elem _ _ _ => acc) ""

/-- First value of the named attribute, if present. -/
def attrLookup (attrs : List (String × String)) (key : String) : Option String :=
  match attrs with
  | [] => none
  | (k, v) :: rest => if k = key then some v else attrLookup rest key

/-- Assoc-list lookup used to model the Go `plugs` map. -/
def assocLookup (table : List (String × String)) (key : String) : Option String :=
  match table with
  | [] => none
  | (k, v) :: rest => if k = key then some v else assocLookup rest key

/-- Update a string field from an attribute when present, keep it otherwise
(`encoding/xml` leaves absent attributes untouched). -/
def attrOr (attrs : List (String × String)) (key : String) (old : String) : String :=
  match attrLookup attrs key with
  | some v => v
  | none => old

/-! ### SetStateCommand -/

/-- `SetStateCommand`: public fields only (its decode target is a local
struct). -/
structure SetStateCmd where
  desiredState : String := ""
  success : Bool := false
deriving DecidableEq

/-- `SetStateCommand.GetXML`: marshal of the anonymous request struct with
`ID = "edimax"`, `Command.ID = "setup"` and the state field set to
`DesiredState` (no `omitempty`, so the element is always present). -/
def SetStateCmd.getXMLDoc (s : SetStateCmd) : XNode :=
  .elem "SMARTPLUG" [("id", "edimax")]
    [.elem "CMD" [("id", "setup")]
      [.elem "Device.System.Power.State" [] [.text s.desiredState]]]

/-- Fold of the root's children for the `SetStateCommand.Parse` target
struct: each `CMD` child overwrites the `Command` string with its character
data. -/
def setStateCmdText (acc : String) : List XNode → String
  | [] => acc
  | .text _ :: rest => setStateCmdText acc rest
  | .elem n _ kids :: rest =>
    if n = "CMD" then setStateCmdText (chardata kids) rest
    else setStateCmdText acc rest

/-- `SetStateCommand.Parse`: decode into a fresh local struct, then
`Success = (c.Command == "OK")`.  A decode failure leaves the command
untouched. -/
def SetStateCmd.parse (s : SetStateCmd) (b : XmlBody) : SetStateCmd × Option GoError :=
  match b with
  | .empty => (s, some .eof)
  | .malformed => (s, some (.badXml "syntax error"))
  | .doc name _ children =>
    if name = "SMARTPLUG" then
      ({ s with success := setStateCmdText "" children = "OK" }, none)
    else (s, some (.badXml "unexpected root element"))

/-! ### GetStateCommand -/

/-- The persistent scratch struct `comm` of `GetStateCommand` (the `XMLName`
field only pins the root element name and carries no data). -/
structure StateComm where
  id : String := ""
  cmdId : String := ""
  state : String := ""
deriving DecidableEq

/-- `GetStateCommand`: public result field plus the scratch struct. -/
structure GetStateCmd where
  currentState : String := ""
  comm : StateComm := {}
deriving DecidableEq

/-- Marshal of the `GetStateCommand` scratch struct (the state field has no
`omitempty`, so it is always emitted). -/
def marshalStateComm (c : StateComm) : XNode :=
  .elem "SMARTPLUG" [("id", c.id)]
    [.elem "CMD" [("id", c.cmdId)]
      [.elem "Device.System.Power.State" [] [.text c.state]]]

/-- `GetStateCommand.GetXML`: sets `comm.ID` and `comm.Command.ID` in place,
then marshals the scratch struct as-is. -/
def GetStateCmd.getXML (g : GetStateCmd) : GetStateCmd × XNode :=
  let comm := { g.comm with id := "edimax", cmdId := "get" }
  ({ g with comm := comm }, marshalStateComm comm)

/-- Decode of the `CMD` children for the state scratch struct. -/
def decodeStateCmdFields (c : StateComm) : List XNode → StateComm
  | [] => c
  | .text _ :: rest => decodeStateCmdFields c rest
  | .elem n _ kids :: rest =>
    if n = "Device.System.Power.State" then
      decodeStateCmdFields { c with state := chardata kids } rest
    else decodeStateCmdFields c rest

/-- Decode of the root's children for the state scratch struct. -/
def decodeStateTop (c : StateComm) : List XNode → StateComm
  | [] => c
  | .text _ :: rest => decodeStateTop c rest
  | .elem n attrs kids :: rest =>
    if n = "CMD" then
      decodeStateTop (decodeStateCmdFields { c with cmdId := attrOr attrs "id" c.cmdId } kids) rest
    else decodeStateTop c rest

/-- `Decoder.Decode(&g.comm)` for `GetStateCommand`: decoding reuses the
existing scratch values, so fields absent from the document keep the values
they already had. -/
def decodeStateComm (c : StateComm) (b : XmlBody) : StateComm × Option GoError :=
  match b with
  | .empty => (c, some .eof)
  | .malformed => (c, some (.badXml "syntax error"))
  | .doc name attrs children =>
    if name = "SMARTPLUG" then
      (decodeStateTop { c with id := attrOr attrs "id" c.id } children, none)
    else (c, some (.badXml "unexpected root element"))

/-- `GetStateCommand.Parse`: decode into the scratch struct, then copy the
state string to `CurrentState`. -/
def GetStateCmd.parse (g : GetStateCmd) (b : XmlBody) : GetStateCmd × Option GoError :=
  match decodeStateComm g.comm b with
  | (comm, some e) => ({ g with comm := comm }, some e)
  | (comm, none) => ({ g with comm := comm, currentState := comm.state }, none)

/-! ### GetEnergyCommand -/

/-- The `NOW_POWER` block of the `GetEnergyCommand` scratch struct. -/
structure NowPowerComm where
  lastToggleTime : String := ""
  nowCurrent : GoFloat := .finite 0
  nowPower : GoFloat := .finite 0
  dailyEnergy : GoFloat := .finite 0
  weeklyEnergy : GoFloat := .finite 0
  monthlyEnergy : GoFloat := .finite 0
deriving DecidableEq

/-- The persistent scratch struct `comm` of `GetEnergyCommand`. -/
structure EnergyComm where
  id : String := ""
  cmdId : String := ""
  nowPower : NowPowerComm := {}
deriving DecidableEq

/-- `GetEnergyCommand`: public result fields plus the scratch struct.  The
public timestamp defaults to the zero `time.Time`. -/
structure GetEnergyCmd where
  lastToggleTime : ℕ := goTimeZero
  nowCurrent : GoFloat := .finite 0
  nowPower : GoFloat := .finite 0
  dailyEnergy : GoFloat := .finite 0
  weeklyEnergy : GoFloat := .finite 0
  monthlyEnergy : GoFloat := .finite 0
  comm : EnergyComm := {}
deriving DecidableEq

/-- The element names of the six telemetry sub-fields, in struct order. -/
def lastToggleName : String := "Device.System.Power.LastToggleTime"
def nowCurrentName : String := "Device.System.Power.NowCurrent"
def nowPowerName : String := "Device.System.Power.NowPower"
def dailyEnergyName : String := "Device.System.Power.NowEnergy.Day"
def weeklyEnergyName : String := "Device.System.Power.NowEnergy.Week"
def monthlyEnergyName : String := "Device.System.Power.NowEnergy.Month"

/-- Which telemetry field an element name selects. -/
inductive NowPowerField where
  | ltt | nc | np | de | we | me
deriving DecidableEq

/-- Field selector for the `NOW_POWER` children. -/
def nowPowerFieldOf (n : String) : Option NowPowerField :=
  if n = lastToggleName then some .ltt
  else if n = nowCurrentName then some .nc
  else if n = nowPowerName then some .np
  else if n = dailyEnergyName then some .de
  else if n = weeklyEnergyName then some .we
  else if n = monthlyEnergyName then some .me
  else none

/-- Decode of the `NOW_POWER` children.  String fields store the raw
character data; `float64` fields go through `strings.TrimSpace` and
`strconv.ParseFloat`, and the first failing field aborts the decode with an
error, keeping the fields already written (as `encoding/xml` does). -/
def decodeNowPowerFields (c : NowPowerComm) : List XNode → NowPowerComm × Option GoError
  | [] => (c, none)
  | .text _ :: rest => decodeNowPowerFields c rest
  | .elem n _ kids :: rest =>
    match nowPowerFieldOf n with
    | none => decodeNowPowerFields c rest
    | some .ltt => decodeNowPowerFields { c with lastToggleTime := chardata kids } rest
    | some .nc =>
      match parseGoFloat (goTrimSpace (chardata kids)) with
      | none => (c, some (.numErr (chardata kids)))
      | some v => decodeNowPowerFields { c with nowCurrent := v } rest
    | some .np =>
      match parseGoFloat (goTrimSpace (chardata kids)) with
      | none => (c, some (.numErr (chardata kids)))
      | some v => decodeNowPowerFields { c with nowPower := v } rest
    | some .de =>
      match parseGoFloat (goTrimSpace (chardata kids)) with
      | none => (c, some (.numErr (chardata kids)))
      | some v => decodeNowPowerFields { c with dailyEnergy := v } rest
    | some .we =>
      match parseGoFloat (goTrimSpace (chardata kids)) with
      | none => (c, some (.numErr (chardata kids)))
      | some v => decodeNowPowerFields { c with weeklyEnergy := v } rest
    | some .me =>
      match parseGoFloat (goTrimSpace (chardata kids)) with
      | none => (c, some (.numErr (chardata kids)))
      | some v => decodeNowPowerFields { c with monthlyEnergy := v } rest

/-- Decode of the `CMD` children for the energy scratch struct. -/
def decodeEnergyCmdFields (c : EnergyComm) : List XNode → EnergyComm × Option GoError
  | [] => (c, none)
  | .text _ :: rest => decodeEnergyCmdFields c rest
  | .elem n _ kids :: rest =>
    if n = "NOW_POWER" then
      match decodeNowPowerFields c.nowPower kids with
      | (np, some e) => ({ c with nowPower := np }, some e)
      | (np, none) => decodeEnergyCmdFields { c with nowPower := np } rest
    else decodeEnergyCmdFields c rest

/-- Decode of the root's children for the energy scratch struct. -/
def decodeEnergyTop (c : EnergyComm) : List XNode → EnergyComm × Option GoError
  | [] => (c, none)
  | .text _ :: rest => decodeEnergyTop c rest
  | .elem n attrs kids :: rest =>
    if n = "CMD" then
      match decodeEnergyCmdFields { c with cmdId := attrOr attrs "id" c.cmdId } kids with
      | (c2, some e) => (c2, some e)
      | (c2, none) => decodeEnergyTop c2 rest
    else decodeEnergyTop c rest

/-- `Decoder.Decode(&g.comm)` for `GetEnergyCommand`. -/
def decodeEnergyComm (c : EnergyComm) (b : XmlBody) : EnergyComm × Option GoError :=
  match b with
  | .empty => (c, some .eof)
  | .malformed => (c, some (.badXml "syntax error"))
  | .doc name attrs children =>
    if name = "SMARTPLUG" then
      decodeEnergyTop { c with id := attrOr attrs "id" c.id } children
    else (c, some (.badXml "unexpected root element"))

/-- `GetEnergyCommand.Parse`: decode into the scratch struct, parse the
timestamp via the fixed layout, and only then copy the fields to the public
result. -/
def GetEnergyCmd.parse (g : GetEnergyCmd) (b : XmlBody) : GetEnergyCmd × Option GoError :=
  match decodeEnergyComm g.comm b with
  | (comm, some e) => ({ g with comm := comm }, some e)
  | (comm, none) =>
    match goParseTimestamp comm.nowPower.lastToggleTime with
    | none => ({ g with comm := comm }, some (.timeErr comm.nowPower.lastToggleTime))
    | some t =>
      ({ g with comm := comm,
                lastToggleTime := t,
                nowCurrent := comm.nowPower.nowCurrent,
                nowPower := comm.nowPower.nowPower,
                dailyEnergy := comm.nowPower.dailyEnergy,
                weeklyEnergy := comm.nowPower.weeklyEnergy,
                monthlyEnergy := comm.nowPower.monthlyEnergy }, none)

/-! ### Float formatting (marshalling side)

`encoding/xml` renders a `float64` field with `strconv.AppendFloat(b, f, 'g',
-1, 64)`, the shortest decimal that round-trips the double.  The model prints
the exact decimal expansion when it terminates — every value an IEEE double
can hold does — and a plain fraction otherwise.  No theorem depends on this
rendering: the only marshalled energy struct in the claims is the fresh one,
whose zero fields `omitempty` drops before formatting is ever reached. -/

/-- Multiplicity of `p` in `n` (fuelled by `n` itself). -/
def multAux (p : ℕ) : ℕ → ℕ → ℕ
  | 0, _ => 0
  | fuel + 1, n => if 2 ≤ p ∧ n ≠ 0 ∧ n % p = 0 then multAux p fuel (n / p) + 1 else 0

/-- Multiplicity of a prime `p` in `n`. -/
def padicMult (p n : ℕ) : ℕ := multAux p n n

/-- Decimal rendering of `num / den` with `k` digits after the point. -/
def decimalString (neg : Bool) (num den : ℕ) (k : ℕ) : String :=
  let digits := num * 10 ^ k / den
  let ds := (toString digits).data
  let ds := if ds.length ≤ k then List.replicate (k + 1 - ds.length) '0' ++ ds else ds
  let intPart := ds.take (ds.length - k)
  let fracPart := ds.drop (ds.length - k)
  let body := if k = 0 then intPart else intPart ++ '.' :: fracPart
  ⟨if neg then '-' :: body else body⟩

/-- Model of the `float64` rendering used by `xml.Marshal`. -/
def goFormatFloat : GoFloat → String
  | .nan => "NaN"
  | .posInf => "+Inf"
  | .negInf => "-Inf"
  | .finite q =>
    let den := q.den
    let e2 := padicMult 2 den
    let e5 := padicMult 5 den
    if 2 ^ e2 * 5 ^ e5 = den then
      decimalString (decide (q < 0)) q.num.natAbs den (max e2 e5)
    else ⟨(toString q.num).data ++ '/' :: (toString den).data⟩

/-- `omitempty` marshalling of a string sub-field: dropped when empty. -/
def optStringChild (name : String) (v : String) : List XNode :=
  if v = "" then [] else [.elem name [] [.text v]]

/-- `omitempty` marshalling of a `float64` sub-field: dropped when zero. -/
def optFloatChild (name : String) (v : GoFloat) : List XNode :=
  if v.isZero then [] else [.elem name [] [.text (goFormatFloat v)]]

/-- Marshal of the `NOW_POWER` block: every sub-field carries `omitempty`. -/
def nowPowerChildren (np : NowPowerComm) : List XNode :=
  optStringChild lastToggleName np.lastToggleTime
    ++ optFloatChild nowCurrentName np.nowCurrent
    ++ optFloatChild nowPowerName np.nowPower
    ++ optFloatChild dailyEnergyName np.dailyEnergy
    ++ optFloatChild weeklyEnergyName np.weeklyEnergy
    ++ optFloatChild monthlyEnergyName np.monthlyEnergy

/-- Marshal of the `GetEnergyCommand` scratch struct. -/
def marshalEnergyComm (c : EnergyComm) : XNode :=
  .elem "SMARTPLUG" [("id", c.id)]
    [.elem "CMD" [("id", c.cmdId)]
      [.elem "NOW_POWER" [] (nowPowerChildren c.nowPower)]]

/-- `GetEnergyCommand.GetXML`: sets `comm.ID` and `comm.Command.ID` in place,
then marshals the scratch struct as-is. -/
def GetEnergyCmd.getXML (g : GetEnergyCmd) : GetEnergyCmd × XNode :=
  let comm := { g.comm with id := "edimax", cmdId := "get" }
  ({ g with comm := comm }, marshalEnergyComm comm)

/-! ### GetSystemInfoCommand -/

/-- The `SYSTEM_INFO` block of the `GetSystemInfoCommand` scratch struct. -/
structure SystemInfoBlock where
  model : String := ""
  firmwareVersion : String := ""
  macAddress : String := ""
  systemName : String := ""
deriving DecidableEq

/-- The persistent scratch struct `comm` of `GetSystemInfoCommand`. -/
structure SysInfoComm where
  id : String := ""
  cmdId : String := ""
  sysInfo : SystemInfoBlock := {}
  deviceTime : String := ""
deriving DecidableEq

/-- `GetSystemInfoCommand`: public result fields plus the scratch struct. -/
structure GetSystemInfoCmd where
  model : String := ""
  firmwareVersion : String := ""
  macAddress : String := ""
  systemName : String := ""
  deviceTime : ℕ := goTimeZero
  comm : SysInfoComm := {}
deriving DecidableEq

/-- Decode of the `SYSTEM_INFO` children (four plain string fields). -/
def decodeSystemInfoFields (c : SystemInfoBlock) : List XNode → SystemInfoBlock
  | [] => c
  | .text _ :: rest => decodeSystemInfoFields c rest
  | .elem n _ kids :: rest =>
    if n = "Run.Model" then decodeSystemInfoFields { c with model := chardata kids } rest
    else if n = "Run.FW.Version" then
      decodeSystemInfoFields { c with firmwareVersion := chardata kids } rest
    else if n = "Run.LAN.Client.MAC.Address" then
      decodeSystemInfoFields { c with macAddress := chardata kids } rest
    else if n = "Device.System.Name" then
      decodeSystemInfoFields { c with systemName := chardata kids } rest
    else decodeSystemInfoFields c rest

/-- Decode of the `CMD` children for the system-info scratch struct. -/
def decodeSysInfoCmdFields (c : SysInfoComm) : List XNode → SysInfoComm
  | [] => c
  | .text _ :: rest => decodeSysInfoCmdFields c rest
  | .elem n _ kids :: rest =>
    if n = "SYSTEM_INFO" then
      decodeSysInfoCmdFields { c with sysInfo := decodeSystemInfoFields c.sysInfo kids } rest
    else if n = "Device.System.Time" then
      decodeSysInfoCmdFields { c with deviceTime := chardata kids } rest
    else decodeSysInfoCmdFields c rest

/-- Decode of the root's children for the system-info scratch struct. -/
def decodeSysInfoTop (c : SysInfoComm) : List XNode → SysInfoComm
  | [] => c
  | .text _ :: rest => decodeSysInfoTop c rest
  | .elem n attrs kids :: rest =>
    if n = "CMD" then
      decodeSysInfoTop (decodeSysInfoCmdFields { c with cmdId := attrOr attrs "id" c.cmdId } kids) rest
    else decodeSysInfoTop c rest

/-- `Decoder.Decode(&g.comm)` for `GetSystemInfoCommand`. -/
def decodeSysInfoComm (c : SysInfoComm) (b : XmlBody) : SysInfoComm × Option GoError :=
  match b with
  | .empty => (c, some .eof)
  | .malformed => (c, some (.badXml "syntax error"))
  | .doc name attrs children =>
    if name = "SMARTPLUG" then
      (decodeSysInfoTop { c with id := attrOr attrs "id" c.id } children, none)
    else (c, some (.badXml "unexpected root element"))

/-- `GetSystemInfoCommand.Parse`: decode into the scratch struct, parse the
device clock via the fixed layout, and only then copy the fields to the
public result. -/
def GetSystemInfoCmd.parse (g : GetSystemInfoCmd) (b : XmlBody) :
    GetSystemInfoCmd × Option GoError :=
  match decodeSysInfoComm g.comm b with
  | (comm, some e) => ({ g with comm := comm }, some e)
  | (comm, none) =>
    match goParseTimestamp comm.deviceTime with
    | none => ({ g with comm := comm }, some (.timeErr comm.deviceTime))
    | some t =>
      ({ g with comm := comm,
                deviceTime := t,
                model := comm.sysInfo.model,
                firmwareVersion := comm.sysInfo.firmwareVersion,
                macAddress := comm.sysInfo.macAddress,
                systemName := comm.sysInfo.systemName }, none)

/-- Marshal of the `GetSystemInfoCommand` scratch struct: the four
`SYSTEM_INFO` strings carry `omitempty`, the `Device.System.Time` field does
not. -/
def marshalSysInfoComm (c : SysInfoComm) : XNode :=
  .elem "SMARTPLUG" [("id", c.id)]
    [.elem "CMD" [("id", c.cmdId)]
      (.elem "SYSTEM_INFO" []
          (optStringChild "Run.Model" c.sysInfo.model
            ++ optStringChild "Run.FW.Version" c.sysInfo.firmwareVersion
            ++ optStringChild "Run.LAN.Client.MAC.Address" c.sysInfo.macAddress
            ++ optStringChild "Device.System.Name" c.sysInfo.systemName)
        :: [.elem "Device.System.Time" [] [.text c.deviceTime]])]

/-- `GetSystemInfoCommand.GetXML`: sets `comm.ID` and `comm.Command.ID` in
place, then marshals the scratch struct as-is. -/
def GetSystemInfoCmd.getXML (g : GetSystemInfoCmd) : GetSystemInfoCmd × XNode :=
  let comm := { g.comm with id := "edimax", cmdId := "get" }
  ({ g with comm := comm }, marshalSysInfoComm comm)

/-! ### Transport (`ExecuteCommand`) and retry

`ExecuteCommand` renders the command, builds an `http.NewRequest("POST",
"http://<ip>:10000/smartplug.cgi", xml.Header + body)`, sets the
`Content-Type` header and Basic auth (`admin`, caller password), performs the
request through `http.DefaultClient.Do`, and on any received response —
whatever its status code — hands the body to the command's `Parse`.  The
network is modelled as an oracle from requests to either a network-level
error (what `Do` returns) or a response. -/

/-- The request `ExecuteCommand` constructs.  The body is the marshalled
document; on the wire it is preceded by `xml.Header`. -/
structure HttpRequest where
  method : String
  url : String
  contentType : String
  authUser : String
  authPass : String
  body : XNode

/-- A received HTTP response: status code plus raw body. -/
structure HttpResponse where
  statusCode : ℕ
  body : XmlBody

/-- A command value bundled with its `GetXML`/`Parse` behaviour, mirroring
the `Command` interface. -/
structure CommandModel (σ : Type) where
  getXML : σ → σ × XNode
  parse : σ → XmlBody → σ × Option GoError

/-- The `Command` instance for `SetStateCommand`. -/
def setStateModel : CommandModel SetStateCmd :=
  { getXML := fun s => (s, s.getXMLDoc), parse := SetStateCmd.parse }

/-- The `Command` instance for `GetStateCommand`. -/
def getStateModel : CommandModel GetStateCmd :=
  { getXML := GetStateCmd.getXML, parse := GetStateCmd.parse }

/-- The `Command` instance for `GetEnergyCommand`. -/
def getEnergyModel : CommandModel GetEnergyCmd :=
  { getXML := GetEnergyCmd.getXML, parse := GetEnergyCmd.parse }

/-- The `Command` instance for `GetSystemInfoCommand`. -/
def getSystemInfoModel : CommandModel GetSystemInfoCmd :=
  { getXML := GetSystemInfoCmd.getXML, parse := GetSystemInfoCmd.parse }

/-- The fixed control endpoint of a plug. -/
def plugURL (ip : String) : String := "http://" ++ ip ++ ":10000/smartplug.cgi"

/-- The single request `ExecuteCommand` constructs for a command value:
`POST` to the fixed endpoint with the `application/xml` content type, Basic
auth `admin` plus the caller password, and the marshalled document as body. -/
def requestOf {σ : Type} (M : CommandModel σ) (c : σ) (ip password : String) : HttpRequest :=
  { method := "POST", url := plugURL ip, contentType := "application/xml",
    authUser := "admin", authPass := password, body := (M.getXML c).2 }

/-- `ExecuteCommand`: returns the updated command value, the list of requests
actually sent (always exactly one here, since `xml.Marshal` cannot fail on
these structs) and the resulting error, if any. -/
def executeCommand {σ : Type} (M : CommandModel σ) (c : σ) (ip password : String)
    (net : HttpRequest → Except String HttpResponse) :
    σ × List HttpRequest × Option GoError :=
  let c1 := (M.getXML c).1
  let req := requestOf M c ip password
  match net req with
  | .error e => (c1, [req], some (.transport e))
  | .ok resp =>
    let (c2, perr) := M.parse c1 resp.body
    (c2, [req], perr)

/-- `backoff.Retry` with the 5-second exponential budget, modelled by a fuel
bound on the number of attempts (wall-clock time is not modelled): run the
operation, return on success, otherwise retry while fuel remains and
otherwise surface the last error. -/
def backoffRetry {σ : Type} : ℕ → (σ → σ × List HttpRequest × Option GoError) → σ →
    σ × List HttpRequest × Option GoError
  | 0, _, s => (s, [], none)
  | fuel + 1, op, s =>
    match op s with
    | (s1, reqs, none) => (s1, reqs, none)
    | (s1, reqs, some e) =>
      match fuel with
      | 0 => (s1, reqs, some e)
      | f + 1 =>
        let (s2, reqs2, err2) := backoffRetry (f + 1) op s1
        (s2, reqs ++ reqs2, err2)

/-! ### The `/switch/{system}/{state}` handler (`handlePlugSwitch`) -/

/-- Outcome of the HTTP handler: status code, message written via
`http.Error`, and the requests that reached the network. -/
structure SwitchResult where
  status : ℕ
  message : String
  requests : List HttpRequest
deriving Inhabited

/-- `handlePlugSwitch`: unknown plug name → 404 before any network call;
known name with a token other than `on`/`off` → 406 before any network call;
otherwise a `SetStateCommand` with the upper-cased token is executed under
`backoff.Retry`. -/
def stateTokenOf (state : String) : Option String :=
  match state with
  | "on" => some "ON"
  | "off" => some "OFF"
  | _ => none

def handlePlugSwitch (plugs : List (String × String)) (system state password : String)
    (net : HttpRequest → Except String HttpResponse) (fuel : ℕ) : SwitchResult :=
  match assocLookup plugs system with
  | none => { status := 404, message := "Plug not found.", requests := [] }
  | some ip =>
    match stateTokenOf state with
    | none => { status := 406, message := "Status not possible.", requests := [] }
    | some desired =>
      let c : SetStateCmd := { desiredState := desired, success := false }
      match backoffRetry fuel (fun s => executeCommand setStateModel s ip password net) c with
      | (_, reqs, some _) =>
        { status := 500, message := "An error occurred while setting state.", requests := reqs }
      | (_, reqs, none) => { status := 200, message := "OK", requests := reqs }

/-! ### Spec-side builders and accessors used by the claims -/

/-- Presence/absence and raw text of each telemetry field in a well-formed
energy response. -/
structure EnergyFieldTexts where
  lastToggleTime : Option String := none
  nowCurrent : Option String := none
  nowPower : Option String := none
  dailyEnergy : Option String := none
  weeklyEnergy : Option String := none
  monthlyEnergy : Option String := none

/-- One optional child element with character data. -/
def optChild (name : String) : Option String → List XNode
  | none => []
  | some s => [.elem name [] [.text s]]

/-- A well-formed energy response document with the given subset of
telemetry fields present. -/
def energyResponseDoc (f : EnergyFieldTexts) : XmlBody :=
  .doc "SMARTPLUG" [("id", "edimax")]
    [.elem "CMD" [("id", "get")]
      [.elem "NOW_POWER" []
        (optChild lastToggleName f.lastToggleTime
          ++ (optChild nowCurrentName f.nowCurrent
            ++ (optChild nowPowerName f.nowPower
              ++ (optChild dailyEnergyName f.dailyEnergy
                ++ (optChild weeklyEnergyName f.weeklyEnergy
                  ++ optChild monthlyEnergyName f.monthlyEnergy)))))]]

/-- A well-formed state response document carrying the given state token. -/
def stateResponseBody (s : String) : XmlBody :=
  .doc "SMARTPLUG" [("id", "edimax")]
    [.elem "CMD" [("id", "get")]
      [.elem "Device.System.Power.State" [] [.text s]]]

/-- View a marshalled document as a response body (the root element becomes
the document root). -/
def bodyOfDoc : XNode → XmlBody
  | .elem n a k => .doc n a k
  | .text _ => .malformed

/-- First child element with the given name. -/
def firstElemNamed (name : String) : List XNode → Option XNode
  | [] => none
  | .elem n a k :: rest => if n = name then some (.elem n a k) else firstElemNamed name rest
  | .text _ :: rest => firstElemNamed name rest

/-- Children of an optional element. -/
def childrenOf : Option XNode → List XNode
  | some (.elem _ _ k) => k
  | _ => []

/-- Attributes of an optional element. -/
def attrsOf : Option XNode → List (String × String)
  | some (.elem _ a _) => a
  | _ => []

/-- Names of the child elements, in order. -/
def elemNames : List XNode → List String
  | [] => []
  | .elem n _ _ :: rest => n :: elemNames rest
  | .text _ :: rest => elemNames rest

/-- The telemetry sub-field element names present under `NOW_POWER` in a
request document. -/
def nowPowerFieldNames (doc : XNode) : List String :=
  elemNames (childrenOf (firstElemNamed "NOW_POWER"
    (childrenOf (firstElemNamed "CMD" (childrenOf (some doc))))))

/-- The `id` attribute of the `CMD` element of a request document. -/
def cmdIdOf (doc : XNode) : Option String :=
  attrLookup (attrsOf (firstElemNamed "CMD" (childrenOf (some doc)))) "id"

/-- The request `ExecuteCommand` builds for a `SetStateCommand` with the
given desired state. -/
def setStateRequest (ip password desired : String) : HttpRequest :=
  { method := "POST", url := plugURL ip, contentType := "application/xml",
    authUser := "admin", authPass := password,
    body := SetStateCmd.getXMLDoc { desiredState := desired, success := false } }

/-- An optional field text that, when present, holds a number
`strconv.ParseFloat` accepts (after trimming). -/
def optFloatOk (o : Option String) : Prop :=
  ∀ s, o = some s → (parseGoFloat (goTrimSpace s)).isSome = true

/-- The float value a present field text decodes to (zero as an unused
fallback). -/
def parsedFloatD (s : String) : GoFloat :=
  (parseGoFloat (goTrimSpace s)).getD (.finite 0)


/-- A canonical well-formed `OK` acknowledgement body. -/
def okAckBody : XmlBody := .doc "SMARTPLUG" [] [.elem "CMD" [] [.text "OK"]]

/-- A network oracle that answers every request with the `OK` acknowledgement
under the given status code. -/
def netOK (code : ℕ) : HttpRequest → Except String HttpResponse :=
  fun _ => Except.ok { statusCode := code, body := okAckBody }

/-- A network oracle on which every request fails at the network level. -/
def netDown : HttpRequest → Except String HttpResponse :=
  fun _ => Except.error "connection refused"

/-! ## Calendar arithmetic

Injectivity of the instant encoding on valid dates. -/

lemma isLeapYear_iff {y : ℕ} :
    isLeapYear y = true ↔ (y % 4 = 0 ∧ (y % 100 ≠ 0 ∨ y % 400 = 0)) := by
  simp [isLeapYear]

lemma daysToYear_succ (y : ℕ) :
    daysToYear (y + 1) = daysToYear y + 365 + (if isLeapYear y = true then 1 else 0) := by
  by_cases h : isLeapYear y = true
  · rw [if_pos h]
    rw [isLeapYear_iff] at h
    obtain ⟨h4, h2⟩ := h
    simp only [daysToYear, leapsBefore]
    rcases h2 with h2 | h2 <;> omega
  · rw [if_neg h]
    rw [isLeapYear_iff] at h
    push_neg at h
    simp only [daysToYear, leapsBefore]
    by_cases h4 : y % 4 = 0
    · obtain ⟨hc1, hc2⟩ := h h4
      omega
    · omega

lemma daysToYear_step (y : ℕ) : daysToYear y + 365 ≤ daysToYear (y + 1) := by
  rw [daysToYear_succ]; split <;> omega

lemma daysToYear_le {a b : ℕ} (h : a ≤ b) : daysToYear a ≤ daysToYear b := by
  induction h with
  | refl => exact le_refl _
  | @step m h2 ih =>
    refine le_trans ih ?_
    show daysToYear m ≤ daysToYear (m + 1)
    have := daysToYear_step m
    omega

lemma daysToYear_lt {a b : ℕ} (h : a < b) : daysToYear a + 365 ≤ daysToYear b :=
  le_trans (daysToYear_step a) (daysToYear_le h)

lemma dayOfYear_lt {y mo d : ℕ} (h1 : 1 ≤ mo) (h2 : mo ≤ 12) (h3 : 1 ≤ d)
    (h4 : d ≤ daysInMonth mo y) :
    dayOfYear y mo d < 365 + (if isLeapYear y = true then 1 else 0) := by
  by_cases hl : isLeapYear y = true <;>
    unfold daysInMonth at h4 <;>
    unfold dayOfYear <;>
    interval_cases mo <;>
    simp [daysBeforeMonth, hl] at * <;>
    omega

lemma dayOfYear_inj {y mo1 d1 mo2 d2 : ℕ}
    (h1 : 1 ≤ mo1) (h2 : mo1 ≤ 12) (h3 : 1 ≤ d1) (h4 : d1 ≤ daysInMonth mo1 y)
    (h5 : 1 ≤ mo2) (h6 : mo2 ≤ 12) (h7 : 1 ≤ d2) (h8 : d2 ≤ daysInMonth mo2 y)
    (heq : dayOfYear y mo1 d1 = dayOfYear y mo2 d2) : mo1 = mo2 ∧ d1 = d2 := by
  by_cases hl : isLeapYear y = true <;>
    unfold daysInMonth at h4 h8 <;>
    unfold dayOfYear at heq <;>
    interval_cases mo1 <;>
    interval_cases mo2 <;>
    simp [daysBeforeMonth, hl] at * <;>
    omega

lemma dayNumber_inj {y1 mo1 d1 y2 mo2 d2 : ℕ}
    (h1 : 1 ≤ mo1) (h2 : mo1 ≤ 12) (h3 : 1 ≤ d1) (h4 : d1 ≤ daysInMonth mo1 y1)
    (h5 : 1 ≤ mo2) (h6 : mo2 ≤ 12) (h7 : 1 ≤ d2) (h8 : d2 ≤ daysInMonth mo2 y2)
    (heq : dayNumber y1 mo1 d1 = dayNumber y2 mo2 d2) :
    y1 = y2 ∧ mo1 = mo2 ∧ d1 = d2 := by
  have b1 := dayOfYear_lt h1 h2 h3 h4
  have b2 := dayOfYear_lt h5 h6 h7 h8
  have hy : y1 = y2 := by
    rcases Nat.lt_trichotomy y1 y2 with h | h | h
    · exfalso
      have hs := daysToYear_succ y1
      have hle := daysToYear_le (show y1 + 1 ≤ y2 from h)
      unfold dayNumber at heq
      by_cases hl : isLeapYear y1 = true <;> simp only [hl, if_true, if_false] at hs b1 <;> omega
    · exact h
    · exfalso
      have hs := daysToYear_succ y2
      have hle := daysToYear_le (show y2 + 1 ≤ y1 from h)
      unfold dayNumber at heq
      by_cases hl : isLeapYear y2 = true <;> simp only [hl, if_true, if_false] at hs b2 <;> omega
  subst hy
  have hdoy : dayOfYear y1 mo1 d1 = dayOfYear y1 mo2 d2 := by
    unfold dayNumber at heq; omega
  exact ⟨rfl, (dayOfYear_inj h1 h2 h3 h4 h5 h6 h7 h8 hdoy).1,
    (dayOfYear_inj h1 h2 h3 h4 h5 h6 h7 h8 hdoy).2⟩

lemma tsInstant_inj {y1 mo1 d1 h1 mi1 s1 y2 mo2 d2 h2 mi2 s2 : ℕ}
    (v1 : validFields y1 mo1 d1 h1 mi1 s1) (v2 : validFields y2 mo2 d2 h2 mi2 s2)
    (heq : tsInstant y1 mo1 d1 h1 mi1 s1 = tsInstant y2 mo2 d2 h2 mi2 s2) :
    y1 = y2 ∧ mo1 = mo2 ∧ d1 = d2 ∧ h1 = h2 ∧ mi1 = mi2 ∧ s1 = s2 := by
  obtain ⟨a1, a2, a3, a4, a5, a6, a7⟩ := v1
  obtain ⟨b1, b2, b3, b4, b5, b6, b7⟩ := v2
  unfold tsInstant at heq
  have hdn : dayNumber y1 mo1 d1 = dayNumber y2 mo2 d2 := by omega
  have htod : 3600 * h1 + 60 * mi1 + s1 = 3600 * h2 + 60 * mi2 + s2 := by omega
  obtain ⟨e1, e2, e3⟩ := dayNumber_inj a1 a2 a3 a4 b1 b2 b3 b4 hdn
  refine ⟨e1, e2, e3, ?_, ?_, ?_⟩ <;> omega

/-! ## Characterization of the timestamp parser -/

lemma digit_char_inj {c1 c2 : Char} (hd1 : isDecDigit c1 = true) (hd2 : isDecDigit c2 = true)
    (h : digitVal c1 = digitVal c2) : c1 = c2 := by
  simp only [isDecDigit, Bool.and_eq_true, decide_eq_true_eq] at hd1 hd2
  have ht : c1.toNat = c2.toNat := by
    unfold digitVal at h
    omega
  calc c1 = Char.ofNat c1.toNat := (Char.ofNat_toNat c1).symm
    _ = Char.ofNat c2.toNat := by rw [ht]
    _ = c2 := Char.ofNat_toNat c2

lemma getnum2_some {cs : List Char} {v : ℕ} {r : List Char} (h : getnum2 cs = some (v, r)) :
    ∃ c1 c2, cs = c1 :: c2 :: r ∧ isDecDigit c1 = true ∧ isDecDigit c2 = true
      ∧ v = 10 * digitVal c1 + digitVal c2 := by
  rcases cs with _ | ⟨c1, _ | ⟨c2, t⟩⟩
  · simp [getnum2] at h
  · simp [getnum2] at h
  · simp only [getnum2] at h
    split at h
    · rename_i hc
      simp only [Option.some.injEq, Prod.mk.injEq] at h
      simp only [Bool.and_eq_true] at hc
      exact ⟨c1, c2, by rw [h.2], hc.1, hc.2, h.1.symm⟩
    · simp at h

lemma getnum4_some {cs : List Char} {v : ℕ} {r : List Char} (h : getnum4 cs = some (v, r)) :
    ∃ c1 c2 c3 c4, cs = c1 :: c2 :: c3 :: c4 :: r ∧ isDecDigit c1 = true ∧ isDecDigit c2 = true
      ∧ isDecDigit c3 = true ∧ isDecDigit c4 = true
      ∧ v = 1000 * digitVal c1 + 100 * digitVal c2 + 10 * digitVal c3 + digitVal c4 := by
  rcases cs with _ | ⟨c1, _ | ⟨c2, _ | ⟨c3, _ | ⟨c4, t⟩⟩⟩⟩
  · simp [getnum4] at h
  · simp [getnum4] at h
  · simp [getnum4] at h
  · simp [getnum4] at h
  · simp only [getnum4] at h
    split at h
    · rename_i hc
      simp only [Option.some.injEq, Prod.mk.injEq] at h
      simp only [Bool.and_eq_true] at hc
      exact ⟨c1, c2, c3, c4, by rw [h.2], hc.1.1.1, hc.1.1.2, hc.1.2, hc.2, h.1.symm⟩
    · simp at h

lemma getnum1or2_then2 {cs : List Char} {a : ℕ} {r : List Char} {b : ℕ} {r2 : List Char}
    (h1 : getnum1or2 cs = some (a, r)) (h2 : getnum2 r = some (b, r2)) :
    ∃ c1 c2, cs = c1 :: c2 :: r ∧ isDecDigit c1 = true ∧ isDecDigit c2 = true
      ∧ a = 10 * digitVal c1 + digitVal c2 := by
  rcases cs with _ | ⟨c1, _ | ⟨c2, t⟩⟩
  · simp [getnum1or2] at h1
  · simp only [getnum1or2] at h1
    split at h1
    · simp only [Option.some.injEq, Prod.mk.injEq] at h1
      rw [← h1.2] at h2
      simp [getnum2] at h2
    · simp at h1
  · simp only [getnum1or2] at h1
    split at h1
    · rename_i hd1
      split at h1
      · rename_i hd2
        simp only [Option.some.injEq, Prod.mk.injEq] at h1
        exact ⟨c1, c2, by rw [h1.2], hd1, hd2, h1.1.symm⟩
      · rename_i hd2
        simp only [Option.some.injEq, Prod.mk.injEq] at h1
        rw [← h1.2] at h2
        obtain ⟨e1, e2, heq, he1, _, _⟩ := getnum2_some h2
        simp only [List.cons.injEq] at heq
        rw [← heq.1] at he1
        exact absurd he1 hd2
    · simp at h1

lemma digitVal_le {c : Char} (h : isDecDigit c = true) : digitVal c ≤ 9 := by
  simp only [isDecDigit, Bool.and_eq_true, decide_eq_true_eq] at h
  unfold digitVal
  omega

lemma two_digit_inj {c1 c2 c1' c2' : Char}
    (d1 : isDecDigit c1 = true) (d2 : isDecDigit c2 = true)
    (d1' : isDecDigit c1' = true) (d2' : isDecDigit c2' = true)
    (h : 10 * digitVal c1 + digitVal c2 = 10 * digitVal c1' + digitVal c2') :
    c1 = c1' ∧ c2 = c2' := by
  have b1 := digitVal_le d1
  have b2 := digitVal_le d2
  have b1' := digitVal_le d1'
  have b2' := digitVal_le d2'
  have e1 : digitVal c1 = digitVal c1' := by omega
  have e2 : digitVal c2 = digitVal c2' := by omega
  exact ⟨digit_char_inj d1 d1' e1, digit_char_inj d2 d2' e2⟩

lemma four_digit_inj {c1 c2 c3 c4 c1' c2' c3' c4' : Char}
    (d1 : isDecDigit c1 = true) (d2 : isDecDigit c2 = true)
    (d3 : isDecDigit c3 = true) (d4 : isDecDigit c4 = true)
    (d1' : isDecDigit c1' = true) (d2' : isDecDigit c2' = true)
    (d3' : isDecDigit c3' = true) (d4' : isDecDigit c4' = true)
    (h : 1000 * digitVal c1 + 100 * digitVal c2 + 10 * digitVal c3 + digitVal c4
       = 1000 * digitVal c1' + 100 * digitVal c2' + 10 * digitVal c3' + digitVal c4') :
    c1 = c1' ∧ c2 = c2' ∧ c3 = c3' ∧ c4 = c4' := by
  have b1 := digitVal_le d1
  have b2 := digitVal_le d2
  have b3 := digitVal_le d3
  have b4 := digitVal_le d4
  have b1' := digitVal_le d1'
  have b2' := digitVal_le d2'
  have b3' := digitVal_le d3'
  have b4' := digitVal_le d4'
  have e1 : digitVal c1 = digitVal c1' := by omega
  have e2 : digitVal c2 = digitVal c2' := by omega
  have e3 : digitVal c3 = digitVal c3' := by omega
  have e4 : digitVal c4 = digitVal c4' := by omega
  exact ⟨digit_char_inj d1 d1' e1, digit_char_inj d2 d2' e2,
    digit_char_inj d3 d3' e3, digit_char_inj d4 d4' e4⟩

/-- Full forward characterization of a successful timestamp parse. -/
lemma parse_some_struct {cs : List Char} {t : ℕ} (h : goParseTimestampChars cs = some t) :
    ∃ a b c d e f g hh i j k l m n : Char,
      cs = [a, b, c, d, e, f, g, hh, i, j, k, l, m, n]
      ∧ isDecDigit a = true ∧ isDecDigit b = true ∧ isDecDigit c = true ∧ isDecDigit d = true
      ∧ isDecDigit e = true ∧ isDecDigit f = true ∧ isDecDigit g = true ∧ isDecDigit hh = true
      ∧ isDecDigit i = true ∧ isDecDigit j = true ∧ isDecDigit k = true ∧ isDecDigit l = true
      ∧ isDecDigit m = true ∧ isDecDigit n = true
      ∧ validFields (1000 * digitVal a + 100 * digitVal b + 10 * digitVal c + digitVal d)
          (10 * digitVal e + digitVal f) (10 * digitVal g + digitVal hh)
          (10 * digitVal i + digitVal j) (10 * digitVal k + digitVal l)
          (10 * digitVal m + digitVal n)
      ∧ t = tsInstant (1000 * digitVal a + 100 * digitVal b + 10 * digitVal c + digitVal d)
          (10 * digitVal e + digitVal f) (10 * digitVal g + digitVal hh)
          (10 * digitVal i + digitVal j) (10 * digitVal k + digitVal l)
          (10 * digitVal m + digitVal n) := by
  unfold goParseTimestampChars at h
  split at h
  · exact absurd h (by simp)
  rename_i y r1 e4
  split at h
  · exact absurd h (by simp)
  rename_i mo r2 e2a
  split at h
  · exact absurd h (by simp)
  rename_i dy r3 e2b
  split at h
  · exact absurd h (by simp)
  rename_i hr r4 e12
  split at h
  · exact absurd h (by simp)
  rename_i mi r5 e2c
  split at h
  · exact absurd h (by simp)
  rename_i sec r6 e2d
  split at h
  · rename_i hcond
    obtain ⟨hr6, hvf⟩ := hcond
    subst hr6
    simp only [Option.some.injEq] at h
    obtain ⟨a, b, c, d, hcs1, da, db, dc, dd, hy⟩ := getnum4_some e4
    obtain ⟨e, f, hcs2, de, df, hmo⟩ := getnum2_some e2a
    obtain ⟨g, hh, hcs3, dg, dh, hdy⟩ := getnum2_some e2b
    obtain ⟨i, j, hcs4, di, dj, hhr⟩ := getnum1or2_then2 e12 e2c
    obtain ⟨k, l, hcs5, dk, dl, hmi⟩ := getnum2_some e2c
    obtain ⟨m, n, hcs6, dm, dn, hsec⟩ := getnum2_some e2d
    subst hy hmo hdy hhr hmi hsec
    subst hcs6 hcs5 hcs4 hcs3 hcs2 hcs1
    exact ⟨a, b, c, d, e, f, g, hh, i, j, k, l, m, n, rfl,
      da, db, dc, dd, de, df, dg, dh, di, dj, dk, dl, dm, dn, hvf, h.symm⟩
  · exact absurd h (by simp)

/-- Parse success implies the spec's format predicate. -/
lemma matches_of_parse {cs : List Char} {t : ℕ} (h : goParseTimestampChars cs = some t) :
    matchesFormatChars cs = true := by
  obtain ⟨a, b, c, d, e, f, g, hh, i, j, k, l, m, n, hcs,
    da, db, dc, dd, de, df, dg, dh, di, dj, dk, dl, dm, dn, hvf, ht⟩ := parse_some_struct h
  obtain ⟨v1, v2, v3, v4, v5, v6, v7⟩ := hvf
  subst hcs
  simp [matchesFormatChars, da, db, dc, dd, de, df, dg, dh, di, dj, dk, dl, dm, dn,
    v1, v2, v3, v4, v5, v6, v7]

/-- The spec's format predicate implies parse success. -/
lemma parse_of_matches {cs : List Char} (h : matchesFormatChars cs = true) :
    (goParseTimestampChars cs).isSome = true := by
  rcases cs with _|⟨a,_|⟨b,_|⟨c,_|⟨d,_|⟨e,_|⟨f,_|⟨g,_|⟨hh,_|⟨i,_|⟨j,_|⟨k,_|⟨l,_|⟨m,_|⟨n,rest⟩⟩⟩⟩⟩⟩⟩⟩⟩⟩⟩⟩⟩⟩ <;>
    try simp [matchesFormatChars] at h
  rcases rest with _ | ⟨o, rest2⟩
  · simp only [matchesFormatChars, List.all_cons, List.all_nil, Bool.and_true,
      Bool.and_eq_true, decide_eq_true_eq] at h
    obtain ⟨⟨da, db, dc, dd, de, df, dg, dh, di, dj, dk, dl, dm, dn⟩, hv⟩ := h
    simp only [goParseTimestampChars, getnum4, getnum2, getnum1or2,
      da, db, dc, dd, de, df, dg, dh, di, dj, dk, dl, dm, dn,
      Bool.and_self, if_true, Bool.and_true, Bool.true_and]
    rw [if_pos]
    · simp
    · refine ⟨trivial, ?_⟩
      unfold validFields
      omega
  · simp [matchesFormatChars] at h

/-- C1: for every string matching the fixed `YYYYMMDDhhmmss` timestamp format
(14 decimal digits whose date and time components are in range) the timestamp
parsing step shared by `GetEnergyCommand.Parse` and
`GetSystemInfoCommand.Parse` succeeds, for every string not matching the
format it fails, and it is injective: two different strings never parse to
the same instant. -/
theorem c1_timestamp_parse :
    (∀ s : String, (goParseTimestamp s).isSome = matchesTimestampFormat s)
    ∧ (∀ s1 s2 : String, ∀ t : ℕ,
        goParseTimestamp s1 = some t → goParseTimestamp s2 = some t → s1 = s2) := by
  constructor
  · intro s
    unfold goParseTimestamp matchesTimestampFormat
    cases hp : goParseTimestampChars s.data with
    | some t => simp [matches_of_parse hp]
    | none =>
      cases hm : matchesFormatChars s.data with
      | false => rfl
      | true =>
        have hs := parse_of_matches hm
        rw [hp] at hs
        simp at hs
  · intro s1 s2 t h1 h2
    unfold goParseTimestamp at h1 h2
    obtain ⟨a, b, c, d, e, f, g, hh, i, j, k, l, m, n, hcs,
      da, db, dc, dd, de, df, dg, dh, di, dj, dk, dl, dm, dn, hvf, ht⟩ := parse_some_struct h1
    obtain ⟨a', b', c', d', e', f', g', hh', i', j', k', l', m', n', hcs',
      da', db', dc', dd', de', df', dg', dh', di', dj', dk', dl', dm', dn', hvf', ht'⟩ :=
      parse_some_struct h2
    rw [ht] at ht'
    obtain ⟨ey, emo, ed, eh, emi, es⟩ := tsInstant_inj hvf hvf' ht'
    obtain ⟨e1, e2, e3, e4⟩ := four_digit_inj da db dc dd da' db' dc' dd' ey
    obtain ⟨e5, e6⟩ := two_digit_inj de df de' df' emo
    obtain ⟨e7, e8⟩ := two_digit_inj dg dh dg' dh' ed
    obtain ⟨e9, e10⟩ := two_digit_inj di dj di' dj' eh
    obtain ⟨e11, e12⟩ := two_digit_inj dk dl dk' dl' emi
    obtain ⟨e13, e14⟩ := two_digit_inj dm dn dm' dn' es
    have hdata : s1.data = s2.data := by
      rw [hcs, hcs', e1, e2, e3, e4, e5, e6, e7, e8, e9, e10, e11, e12, e13, e14]
    cases s1
    cases s2
    exact congrArg String.mk (by simpa using hdata)

/-- Witness for C1 at concrete inputs: a valid timestamp parses (and a
month-13 string does not match, hence does not parse), and injectivity
applied at a concrete pair. -/
theorem c1_timestamp_parse_witness :
    (goParseTimestamp "20231001123456").isSome = matchesTimestampFormat "20231001123456"
    ∧ (goParseTimestamp "20231301000000").isSome = matchesTimestampFormat "20231301000000"
    ∧ "20231001123456" = "20231001123456" :=
  ⟨c1_timestamp_parse.1 "20231001123456",
   c1_timestamp_parse.1 "20231301000000",
   c1_timestamp_parse.2 "20231001123456" "20231001123456" 63863382896
     (by decide) (by decide)⟩

/-! ## C3: the rendered energy request -/

/-- C3 counterexample: the request a fresh `GetEnergyCommand` renders has
command id `get`, but its `NOW_POWER` block contains no telemetry sub-field
elements at all — in particular no `Device.System.Power.NowCurrent` — because
every sub-field tag carries `omitempty` and the fresh fields are zero values,
refuting the claim that every sub-field is present as an empty element. -/
theorem c3_counterexample :
    cmdIdOf (GetEnergyCmd.getXML {}).2 = some "get"
    ∧ nowPowerFieldNames (GetEnergyCmd.getXML {}).2 = []
    ∧ ((nowPowerFieldNames (GetEnergyCmd.getXML {}).2).contains nowCurrentName) = false :=
  ⟨rfl, rfl, rfl⟩

/-- C3 (amended): a fresh `GetEnergyCommand` renders a request with root id
`edimax` and command id `get` whose `NOW_POWER` block is present but empty:
all telemetry sub-field elements are omitted (dropped by `omitempty` on zero
values), not present-but-empty. -/
theorem c3_fresh_energy_request :
    (GetEnergyCmd.getXML {}).2
      = XNode.elem "SMARTPLUG" [("id", "edimax")]
          [XNode.elem "CMD" [("id", "get")] [XNode.elem "NOW_POWER" [] []]] := rfl

/-! ## C4: SetStateCommand.Parse -/

/-- C4 counterexample: handed the empty body, `SetStateCommand.Parse` does
not set `Success = false` and return cleanly — the decoder fails with
`io.EOF`, so `Parse` returns an error (leaving the command untouched),
refuting the claim's "including the empty body" clause. -/
theorem c4_counterexample :
    SetStateCmd.parse { desiredState := "ON", success := true } XmlBody.empty
      = ({ desiredState := "ON", success := true }, some GoError.eof) := rfl

/-- C4 (amended): for every well-formed response document (root
`SMARTPLUG`), `Parse` raises no error and sets `Success` to true exactly when
the decoded `CMD` character data equals `"OK"`; an empty body, a malformed
body, or a document with a different root yields a decode error and leaves
the command, including `Success`, unchanged. -/
theorem c4_setstate_parse :
    (∀ (s : SetStateCmd) (attrs : List (String × String)) (children : List XNode),
      (SetStateCmd.parse s (.doc "SMARTPLUG" attrs children)).2 = none
      ∧ ((SetStateCmd.parse s (.doc "SMARTPLUG" attrs children)).1.success = true
          ↔ setStateCmdText "" children = "OK"))
    ∧ (∀ s : SetStateCmd, SetStateCmd.parse s .empty = (s, some .eof))
    ∧ (∀ s : SetStateCmd, SetStateCmd.parse s .malformed = (s, some (.badXml "syntax error")))
    ∧ (∀ (s : SetStateCmd) (name : String) (attrs : List (String × String))
        (children : List XNode), name ≠ "SMARTPLUG" →
        SetStateCmd.parse s (.doc name attrs children)
          = (s, some (.badXml "unexpected root element"))) := by
  refine ⟨?_, fun s => rfl, fun s => rfl, ?_⟩
  · intro s attrs children
    constructor
    · simp [SetStateCmd.parse]
    · simp [SetStateCmd.parse]
  · intro s name attrs children hne
    simp [SetStateCmd.parse, hne]

/-- Witness for C4 (amended) at concrete inputs: an `OK` acknowledgement
sets `Success`, and a wrong root element is a decode error. -/
theorem c4_setstate_parse_witness :
    ((SetStateCmd.parse { desiredState := "ON", success := false }
        (.doc "SMARTPLUG" [] [.elem "CMD" [] [.text "OK"]])).1.success = true
      ↔ setStateCmdText "" [XNode.elem "CMD" [] [.text "OK"]] = "OK")
    ∧ SetStateCmd.parse { desiredState := "ON", success := false } (.doc "WRONG" [] [])
        = ({ desiredState := "ON", success := false }, some (.badXml "unexpected root element")) :=
  ⟨(c4_setstate_parse.1 { desiredState := "ON", success := false } []
      [XNode.elem "CMD" [] [.text "OK"]]).2,
   c4_setstate_parse.2.2.2 { desiredState := "ON", success := false } "WRONG" [] []
     (by decide)⟩

/-! ## C7: state token round trip -/

/-- C7: for both valid state tokens, marshalling a `SetStateCommand` and
decoding the produced document's `Device.System.Power.State` field with
`GetStateCommand.Parse` yields the token unchanged (and no error). -/
theorem c7_roundtrip :
    ((GetStateCmd.parse {} (bodyOfDoc
        (SetStateCmd.getXMLDoc { desiredState := "ON", success := false }))).1.currentState = "ON"
      ∧ (GetStateCmd.parse {} (bodyOfDoc
          (SetStateCmd.getXMLDoc { desiredState := "ON", success := false }))).2 = none)
    ∧ ((GetStateCmd.parse {} (bodyOfDoc
        (SetStateCmd.getXMLDoc { desiredState := "OFF", success := false }))).1.currentState = "OFF"
      ∧ (GetStateCmd.parse {} (bodyOfDoc
          (SetStateCmd.getXMLDoc { desiredState := "OFF", success := false }))).2 = none) :=
  ⟨⟨rfl, rfl⟩, ⟨rfl, rfl⟩⟩

/-! ## C10: the scratch struct leaks parsed state into later requests -/

/-- C10: `GetStateCommand.GetXML` marshals the persistent scratch struct
as-is, so after a successful `Parse` stored a response state `S`, the next
rendered request carries `S` inside `Device.System.Power.State` — while a
fresh command renders it empty: the request is not independent of previously
parsed responses. -/
theorem c10_scratch_state_leak :
    (∀ (g : GetStateCmd) (S : String),
      (GetStateCmd.parse g (stateResponseBody S)).2 = none
      ∧ ((GetStateCmd.parse g (stateResponseBody S)).1.getXML).2
          = XNode.elem "SMARTPLUG" [("id", "edimax")]
              [XNode.elem "CMD" [("id", "get")]
                [XNode.elem "Device.System.Power.State" [] [XNode.text S]]])
    ∧ (({} : GetStateCmd).getXML).2
        = XNode.elem "SMARTPLUG" [("id", "edimax")]
            [XNode.elem "CMD" [("id", "get")]
              [XNode.elem "Device.System.Power.State" [] [XNode.text ""]]] := by
  refine ⟨fun g S => ⟨rfl, rfl⟩, rfl⟩

/-! ## C5: a failing Parse never touches the public result fields -/

/-- C5: for each of the four commands, whenever `Parse` returns an error —
whatever the input body — the command's public result fields are exactly what
they were before the call (only the private scratch struct may have been
written). -/
theorem c5_error_preserves_public :
    (∀ (c : SetStateCmd) (b : XmlBody) (e : GoError), (SetStateCmd.parse c b).2 = some e →
      (SetStateCmd.parse c b).1 = c)
    ∧ (∀ (c : GetStateCmd) (b : XmlBody) (e : GoError), (GetStateCmd.parse c b).2 = some e →
      (GetStateCmd.parse c b).1.currentState = c.currentState)
    ∧ (∀ (c : GetEnergyCmd) (b : XmlBody) (e : GoError), (GetEnergyCmd.parse c b).2 = some e →
      (GetEnergyCmd.parse c b).1.lastToggleTime = c.lastToggleTime
      ∧ (GetEnergyCmd.parse c b).1.nowCurrent = c.nowCurrent
      ∧ (GetEnergyCmd.parse c b).1.nowPower = c.nowPower
      ∧ (GetEnergyCmd.parse c b).1.dailyEnergy = c.dailyEnergy
      ∧ (GetEnergyCmd.parse c b).1.weeklyEnergy = c.weeklyEnergy
      ∧ (GetEnergyCmd.parse c b).1.monthlyEnergy = c.monthlyEnergy)
    ∧ (∀ (c : GetSystemInfoCmd) (b : XmlBody) (e : GoError),
        (GetSystemInfoCmd.parse c b).2 = some e →
      (GetSystemInfoCmd.parse c b).1.model = c.model
      ∧ (GetSystemInfoCmd.parse c b).1.firmwareVersion = c.firmwareVersion
      ∧ (GetSystemInfoCmd.parse c b).1.macAddress = c.macAddress
      ∧ (GetSystemInfoCmd.parse c b).1.systemName = c.systemName
      ∧ (GetSystemInfoCmd.parse c b).1.deviceTime = c.deviceTime) := by
  refine ⟨?_, ?_, ?_, ?_⟩
  · intro c b e h
    cases b with
    | empty => rfl
    | malformed => rfl
    | doc name attrs children =>
      by_cases hn : name = "SMARTPLUG"
      · simp [SetStateCmd.parse, hn] at h
      · simp [SetStateCmd.parse, hn]
  · intro c b e h
    rcases hd : decodeStateComm c.comm b with ⟨comm, err⟩
    cases err with
    | none => simp [GetStateCmd.parse, hd] at h
    | some e2 => simp [GetStateCmd.parse, hd]
  · intro c b e h
    rcases hd : decodeEnergyComm c.comm b with ⟨comm, err⟩
    cases err with
    | none =>
      cases hts : goParseTimestamp comm.nowPower.lastToggleTime with
      | none => simp [GetEnergyCmd.parse, hd, hts]
      | some t => simp [GetEnergyCmd.parse, hd, hts] at h
    | some e2 => simp [GetEnergyCmd.parse, hd]
  · intro c b e h
    rcases hd : decodeSysInfoComm c.comm b with ⟨comm, err⟩
    cases err with
    | none =>
      cases hts : goParseTimestamp comm.deviceTime with
      | none => simp [GetSystemInfoCmd.parse, hd, hts]
      | some t => simp [GetSystemInfoCmd.parse, hd, hts] at h
    | some e2 => simp [GetSystemInfoCmd.parse, hd]

/-- Witness for C5 at concrete inputs: a malformed body leaves a
`SetStateCommand` untouched, and a failing numeric field leaves the public
energy fields of a fresh `GetEnergyCommand` untouched. -/
theorem c5_error_preserves_public_witness :
    (SetStateCmd.parse { desiredState := "ON", success := true } .malformed).1
      = { desiredState := "ON", success := true }
    ∧ (GetEnergyCmd.parse {}
        (energyResponseDoc { weeklyEnergy := some "abc" })).1.weeklyEnergy
      = ({} : GetEnergyCmd).weeklyEnergy :=
  ⟨c5_error_preserves_public.1 { desiredState := "ON", success := true } .malformed
     (.badXml "syntax error") rfl,
   (c5_error_preserves_public.2.2.1 {} (energyResponseDoc { weeklyEnergy := some "abc" })
     (.numErr "abc") rfl).2.2.2.2.1⟩

/-! ## Stepping lemmas for the energy decode -/

lemma nowPowerFieldOf_ltt : nowPowerFieldOf lastToggleName = some .ltt := rfl
lemma nowPowerFieldOf_nc : nowPowerFieldOf nowCurrentName = some .nc := rfl
lemma nowPowerFieldOf_np : nowPowerFieldOf nowPowerName = some .np := rfl
lemma nowPowerFieldOf_de : nowPowerFieldOf dailyEnergyName = some .de := rfl
lemma nowPowerFieldOf_we : nowPowerFieldOf weeklyEnergyName = some .we := rfl
lemma nowPowerFieldOf_me : nowPowerFieldOf monthlyEnergyName = some .me := rfl

lemma chardata_single (s : String) : chardata [XNode.text s] = s := rfl

lemma decodeNP_nil (c : NowPowerComm) : decodeNowPowerFields c [] = (c, none) := rfl

lemma optChild_none (name : String) : optChild name none = [] := rfl

lemma optChild_some (name s : String) :
    optChild name (some s) = [XNode.elem name [] [XNode.text s]] := rfl

lemma decodeNP_ltt_some (c : NowPowerComm) (rest : List XNode) (s : String) :
    decodeNowPowerFields c (XNode.elem lastToggleName [] [XNode.text s] :: rest)
      = decodeNowPowerFields { c with lastToggleTime := s } rest := rfl

lemma decodeNP_nc_some (c : NowPowerComm) (rest : List XNode) (s : String)
    (hs : (parseGoFloat (goTrimSpace s)).isSome = true) :
    decodeNowPowerFields c (XNode.elem nowCurrentName [] [XNode.text s] :: rest)
      = decodeNowPowerFields { c with nowCurrent := parsedFloatD s } rest := by
  obtain ⟨v, hv⟩ := Option.isSome_iff_exists.mp hs
  simp only [decodeNowPowerFields, nowPowerFieldOf_nc, chardata_single, hv, parsedFloatD,
    Option.getD_some]

lemma decodeNP_np_some (c : NowPowerComm) (rest : List XNode) (s : String)
    (hs : (parseGoFloat (goTrimSpace s)).isSome = true) :
    decodeNowPowerFields c (XNode.elem nowPowerName [] [XNode.text s] :: rest)
      = decodeNowPowerFields { c with nowPower := parsedFloatD s } rest := by
  obtain ⟨v, hv⟩ := Option.isSome_iff_exists.mp hs
  simp only [decodeNowPowerFields, nowPowerFieldOf_np, chardata_single, hv, parsedFloatD,
    Option.getD_some]

lemma decodeNP_de_some (c : NowPowerComm) (rest : List XNode) (s : String)
    (hs : (parseGoFloat (goTrimSpace s)).isSome = true) :
    decodeNowPowerFields c (XNode.elem dailyEnergyName [] [XNode.text s] :: rest)
      = decodeNowPowerFields { c with dailyEnergy := parsedFloatD s } rest := by
  obtain ⟨v, hv⟩ := Option.isSome_iff_exists.mp hs
  simp only [decodeNowPowerFields, nowPowerFieldOf_de, chardata_single, hv, parsedFloatD,
    Option.getD_some]

lemma decodeNP_we_some (c : NowPowerComm) (rest : List XNode) (s : String)
    (hs : (parseGoFloat (goTrimSpace s)).isSome = true) :
    decodeNowPowerFields c (XNode.elem weeklyEnergyName [] [XNode.text s] :: rest)
      = decodeNowPowerFields { c with weeklyEnergy := parsedFloatD s } rest := by
  obtain ⟨v, hv⟩ := Option.isSome_iff_exists.mp hs
  simp only [decodeNowPowerFields, nowPowerFieldOf_we, chardata_single, hv, parsedFloatD,
    Option.getD_some]

lemma decodeNP_me_some (c : NowPowerComm) (rest : List XNode) (s : String)
    (hs : (parseGoFloat (goTrimSpace s)).isSome = true) :
    decodeNowPowerFields c (XNode.elem monthlyEnergyName [] [XNode.text s] :: rest)
      = decodeNowPowerFields { c with monthlyEnergy := parsedFloatD s } rest := by
  obtain ⟨v, hv⟩ := Option.isSome_iff_exists.mp hs
  simp only [decodeNowPowerFields, nowPowerFieldOf_me, chardata_single, hv, parsedFloatD,
    Option.getD_some]

lemma decodeNP_we_fail (c : NowPowerComm) (rest : List XNode) (s : String)
    (hs : parseGoFloat (goTrimSpace s) = none) :
    decodeNowPowerFields c (XNode.elem weeklyEnergyName [] [XNode.text s] :: rest)
      = (c, some (.numErr s)) := by
  simp only [decodeNowPowerFields, nowPowerFieldOf_we, chardata_single, hs]

lemma decodeEnergyComm_shell (c : EnergyComm) (np : List XNode) :
    decodeEnergyComm c (XmlBody.doc "SMARTPLUG" [("id", "edimax")]
        [.elem "CMD" [("id", "get")] [.elem "NOW_POWER" [] np]])
      = ({ id := "edimax", cmdId := "get", nowPower := (decodeNowPowerFields c.nowPower np).1 },
         (decodeNowPowerFields c.nowPower np).2) := by
  rcases h : decodeNowPowerFields c.nowPower np with ⟨np2, err⟩
  cases err with
  | none => simp [decodeEnergyComm, decodeEnergyTop, decodeEnergyCmdFields, attrOr, attrLookup, h]
  | some e => simp [decodeEnergyComm, decodeEnergyTop, decodeEnergyCmdFields, attrOr, attrLookup, h]

/-! ## C2: absent optional telemetry fields -/

/-- C2 counterexample: a well-formed response in which the subset of absent
optional fields is exactly `LastToggleTime` (all five numeric fields present
and valid) makes `GetEnergyCommand.Parse` fail: the decode tolerates the
absence, but the subsequent `time.Parse` of the empty string errors — refuting
the claim that absence of any subset of the optional telemetry fields,
`LastToggleTime` included, is tolerated without error. -/
theorem c2_counterexample :
    (GetEnergyCmd.parse {} (energyResponseDoc
        { nowCurrent := some "1.5", nowPower := some "2", dailyEnergy := some "3",
          weeklyEnergy := some "4", monthlyEnergy := some "5" })).2
      = some (.timeErr "") := rfl

/-- C2 (amended): for every well-formed response carrying a valid
`LastToggleTime` in which any subset of the five optional numeric telemetry
fields is absent (present ones holding decodable numbers), `Parse` returns
without error and reads each absent numeric field as its zero value; absence
of `LastToggleTime` itself, by contrast, makes `Parse` fail at the timestamp
step. -/
theorem c2_optional_numeric_zero (ts : String) (t : ℕ) (onc onp ode owe ome : Option String)
    (hts : goParseTimestamp ts = some t)
    (h1 : optFloatOk onc) (h2 : optFloatOk onp) (h3 : optFloatOk ode)
    (h4 : optFloatOk owe) (h5 : optFloatOk ome) :
    (GetEnergyCmd.parse {} (energyResponseDoc
        { lastToggleTime := some ts, nowCurrent := onc, nowPower := onp,
          dailyEnergy := ode, weeklyEnergy := owe, monthlyEnergy := ome })).2 = none
    ∧ (onc = none → (GetEnergyCmd.parse {} (energyResponseDoc
        { lastToggleTime := some ts, nowCurrent := onc, nowPower := onp,
          dailyEnergy := ode, weeklyEnergy := owe, monthlyEnergy := ome })).1.nowCurrent
        = .finite 0)
    ∧ (onp = none → (GetEnergyCmd.parse {} (energyResponseDoc
        { lastToggleTime := some ts, nowCurrent := onc, nowPower := onp,
          dailyEnergy := ode, weeklyEnergy := owe, monthlyEnergy := ome })).1.nowPower
        = .finite 0)
    ∧ (ode = none → (GetEnergyCmd.parse {} (energyResponseDoc
        { lastToggleTime := some ts, nowCurrent := onc, nowPower := onp,
          dailyEnergy := ode, weeklyEnergy := owe, monthlyEnergy := ome })).1.dailyEnergy
        = .finite 0)
    ∧ (owe = none → (GetEnergyCmd.parse {} (energyResponseDoc
        { lastToggleTime := some ts, nowCurrent := onc, nowPower := onp,
          dailyEnergy := ode, weeklyEnergy := owe, monthlyEnergy := ome })).1.weeklyEnergy
        = .finite 0)
    ∧ (ome = none → (GetEnergyCmd.parse {} (energyResponseDoc
        { lastToggleTime := some ts, nowCurrent := onc, nowPower := onp,
          dailyEnergy := ode, weeklyEnergy := owe, monthlyEnergy := ome })).1.monthlyEnergy
        = .finite 0) := by
  rcases onc with _ | s1 <;> rcases onp with _ | s2 <;> rcases ode with _ | s3 <;>
    rcases owe with _ | s4 <;> rcases ome with _ | s5
  all_goals try have hs1 : (parseGoFloat (goTrimSpace s1)).isSome = true := h1 s1 rfl
  all_goals try have hs2 : (parseGoFloat (goTrimSpace s2)).isSome = true := h2 s2 rfl
  all_goals try have hs3 : (parseGoFloat (goTrimSpace s3)).isSome = true := h3 s3 rfl
  all_goals try have hs4 : (parseGoFloat (goTrimSpace s4)).isSome = true := h4 s4 rfl
  all_goals try have hs5 : (parseGoFloat (goTrimSpace s5)).isSome = true := h5 s5 rfl
  all_goals simp [energyResponseDoc, GetEnergyCmd.parse, decodeEnergyComm_shell,
    optChild_none, optChild_some, decodeNP_ltt_some, decodeNP_nc_some, decodeNP_np_some,
    decodeNP_de_some, decodeNP_we_some, decodeNP_me_some, decodeNP_nil, hts, *]

/-- Witness for C2 (amended) at a concrete input: a response with a valid
timestamp, `NowCurrent = "1.5"` and the other four numeric fields absent
parses without error and reads the absent weekly energy as zero. -/
theorem c2_optional_numeric_zero_witness :
    (GetEnergyCmd.parse {} (energyResponseDoc
        { lastToggleTime := some "20231001123456", nowCurrent := some "1.5" })).2 = none
    ∧ (GetEnergyCmd.parse {} (energyResponseDoc
        { lastToggleTime := some "20231001123456", nowCurrent := some "1.5" })).1.weeklyEnergy
      = .finite 0 := by
  have h := c2_optional_numeric_zero "20231001123456" 63863382896 (some "1.5")
    none none none none (by decide)
    (fun s hs => by injection hs with h2; subst h2; decide)
    (fun s hs => nomatch hs) (fun s hs => nomatch hs)
    (fun s hs => nomatch hs) (fun s hs => nomatch hs)
  exact ⟨h.1, h.2.2.2.2.1 rfl⟩

/-! ## C6: the weekly-energy field -/

/-- C6: a well-formed response with a valid timestamp that omits the
weekly-energy field parses without error and yields weekly energy zero,
while a response whose weekly-energy field is present with the non-numeric
text `"abc"` makes `Parse` fail with the number error instead of coercing
the value to zero. -/
theorem c6_weekly_energy :
    (∀ (ts : String) (t : ℕ), goParseTimestamp ts = some t →
      (GetEnergyCmd.parse {} (energyResponseDoc { lastToggleTime := some ts })).2 = none
      ∧ (GetEnergyCmd.parse {}
          (energyResponseDoc { lastToggleTime := some ts })).1.weeklyEnergy = .finite 0)
    ∧ (∀ ts : String,
      (GetEnergyCmd.parse {} (energyResponseDoc
          { lastToggleTime := some ts, weeklyEnergy := some "abc" })).2
        = some (.numErr "abc")) := by
  constructor
  · intro ts t hts
    simp [energyResponseDoc, GetEnergyCmd.parse, decodeEnergyComm_shell, optChild_none,
      optChild_some, decodeNP_ltt_some, decodeNP_nil, hts]
  · intro ts
    have habc : parseGoFloat (goTrimSpace "abc") = none := rfl
    simp [energyResponseDoc, GetEnergyCmd.parse, decodeEnergyComm_shell, optChild_none,
      optChild_some, decodeNP_ltt_some, decodeNP_we_fail, habc]

/-- Witness for C6 at a concrete valid timestamp. -/
theorem c6_weekly_energy_witness :
    (GetEnergyCmd.parse {}
        (energyResponseDoc { lastToggleTime := some "20231001123456" })).2 = none
    ∧ (GetEnergyCmd.parse {} (energyResponseDoc
        { lastToggleTime := some "20231001123456", weeklyEnergy := some "abc" })).2
      = some (.numErr "abc") :=
  ⟨(c6_weekly_energy.1 "20231001123456" 63863382896 (by decide)).1,
   c6_weekly_energy.2 "20231001123456"⟩

/-! ## C8: ExecuteCommand -/

/-- C8: `ExecuteCommand` sends exactly one request — a `POST` to
`http://<ip>:10000/smartplug.cgi` with `Content-Type: application/xml` and
Basic auth `admin` / the caller-supplied password.  When the HTTP call fails
at the network level the transport error is returned and the command's
`Parse` is never invoked (the outcome is identical for any parse behaviour,
with the command state as `GetXML` left it); when any response is received,
whatever its status code, the outcome is exactly that of handing the raw
response body to `Parse`. -/
theorem c8_execute_command (σ : Type) (M : CommandModel σ) (c : σ) (ip password : String)
    (net : HttpRequest → Except String HttpResponse) :
    ((executeCommand M c ip password net).2.1 = [requestOf M c ip password]
      ∧ (requestOf M c ip password).method = "POST"
      ∧ (requestOf M c ip password).url = "http://" ++ ip ++ ":10000/smartplug.cgi"
      ∧ (requestOf M c ip password).contentType = "application/xml"
      ∧ (requestOf M c ip password).authUser = "admin"
      ∧ (requestOf M c ip password).authPass = password)
    ∧ (∀ e : String, net (requestOf M c ip password) = .error e →
        executeCommand M c ip password net
          = ((M.getXML c).1, [requestOf M c ip password], some (.transport e))
        ∧ ∀ parse2 : σ → XmlBody → σ × Option GoError,
            executeCommand { getXML := M.getXML, parse := parse2 } c ip password net
              = executeCommand M c ip password net)
    ∧ (∀ resp : HttpResponse, net (requestOf M c ip password) = .ok resp →
        executeCommand M c ip password net
          = ((M.parse (M.getXML c).1 resp.body).1, [requestOf M c ip password],
             (M.parse (M.getXML c).1 resp.body).2)) := by
  refine ⟨?_, ?_, ?_⟩
  · refine ⟨?_, rfl, rfl, rfl, rfl, rfl⟩
    simp only [executeCommand]
    split <;> rfl
  · intro e he
    constructor
    · simp only [executeCommand, he]
    · intro parse2
      have he2 : net (requestOf { getXML := M.getXML, parse := parse2 } c ip password)
          = .error e := he
      simp only [executeCommand, he, he2]
      rfl
  · intro resp hr
    simp only [executeCommand, hr]

/-- Witness for C8 at concrete inputs: a failing network yields the
transport error without invoking `Parse`, and a received response is handed
to `Parse` even under an error status code. -/
theorem c8_execute_command_witness :
    (executeCommand setStateModel { desiredState := "ON", success := false } "1.2.3.4" "pw"
        netDown
      = ({ desiredState := "ON", success := false },
         [requestOf setStateModel { desiredState := "ON", success := false } "1.2.3.4" "pw"],
         some (.transport "connection refused")))
    ∧ (executeCommand setStateModel { desiredState := "ON", success := false } "1.2.3.4" "pw"
        (netOK 500)
      = ({ desiredState := "ON", success := true },
         [requestOf setStateModel { desiredState := "ON", success := false } "1.2.3.4" "pw"],
         none)) := by
  constructor
  · exact ((c8_execute_command SetStateCmd setStateModel
      { desiredState := "ON", success := false } "1.2.3.4" "pw" netDown).2.1
      "connection refused" rfl).1
  · have h := (c8_execute_command SetStateCmd setStateModel
      { desiredState := "ON", success := false } "1.2.3.4" "pw" (netOK 500)).2.2
      { statusCode := 500, body := okAckBody } rfl
    rw [h]
    rfl

/-! ## C9: the switch handler -/

/-- C9: an inbound switch request for a plug name missing from the address
table is answered 404 with no network call; a known name with a state token
other than `on`/`off` (such as `sideways`) is answered 406 with no network
call; and for a known name with token `on`, when the device answers the
first exchange with a well-formed document, exactly one SetState exchange is
attempted and its body is the marshalling of `DesiredState = "ON"`. -/
theorem c9_handle_plug_switch (plugs : List (String × String))
    (system state password : String) (net : HttpRequest → Except String HttpResponse)
    (fuel : ℕ) :
    (assocLookup plugs system = none →
      handlePlugSwitch plugs system state password net fuel
        = { status := 404, message := "Plug not found.", requests := [] })
    ∧ (∀ ip, assocLookup plugs system = some ip → state ≠ "on" → state ≠ "off" →
      handlePlugSwitch plugs system state password net fuel
        = { status := 406, message := "Status not possible.", requests := [] })
    ∧ (∀ ip (resp : HttpResponse) (attrs : List (String × String)) (children : List XNode),
        assocLookup plugs system = some ip → state = "on" → 1 ≤ fuel →
        net (setStateRequest ip password "ON") = .ok resp →
        resp.body = .doc "SMARTPLUG" attrs children →
        (handlePlugSwitch plugs system state password net fuel).requests
          = [setStateRequest ip password "ON"]
        ∧ (setStateRequest ip password "ON").body
            = SetStateCmd.getXMLDoc { desiredState := "ON", success := false }) := by
  refine ⟨?_, ?_, ?_⟩
  · intro h
    simp [handlePlugSwitch, h]
  · intro ip hip hon hoff
    have hstate : stateTokenOf state = none := by
      unfold stateTokenOf
      split <;> simp_all
    simp only [handlePlugSwitch, hip, hstate]
  · intro ip resp attrs children hip hon hfuel hnet hbody
    subst hon
    refine ⟨?_, rfl⟩
    have hreq : requestOf setStateModel
        ({ desiredState := "ON", success := false } : SetStateCmd) ip password
        = setStateRequest ip password "ON" := rfl
    cases fuel with
    | zero => exact absurd hfuel (by simp)
    | succ f =>
      have hnet2 : net (requestOf setStateModel
          ({ desiredState := "ON", success := false } : SetStateCmd) ip password)
          = .ok resp := by
        rw [hreq]
        exact hnet
      have hop : executeCommand setStateModel
          ({ desiredState := "ON", success := false } : SetStateCmd) ip password net
          = (({ desiredState := "ON", success := setStateCmdText "" children = "OK" }
              : SetStateCmd),
             [setStateRequest ip password "ON"], none) := by
        simp only [executeCommand]
        rw [hnet2]
        simp only [setStateModel, SetStateCmd.parse, hbody, hreq]
        simp
        exact hreq
      simp only [handlePlugSwitch, hip]
      have htok : stateTokenOf "on" = some "ON" := rfl
      simp [htok, backoffRetry, hop]

/-- Witness for C9 at concrete inputs: unknown plug name, invalid state
token, and a successful `on` request against a one-entry address table. -/
theorem c9_handle_plug_switch_witness :
    (handlePlugSwitch [("desk", "1.2.3.4")] "lamp" "on" "pw" (netOK 200) 3
      = { status := 404, message := "Plug not found.", requests := [] })
    ∧ (handlePlugSwitch [("desk", "1.2.3.4")] "desk" "sideways" "pw" (netOK 200) 3
      = { status := 406, message := "Status not possible.", requests := [] })
    ∧ (handlePlugSwitch [("desk", "1.2.3.4")] "desk" "on" "pw" (netOK 200) 3).requests
      = [setStateRequest "1.2.3.4" "pw" "ON"] := by
  refine ⟨?_, ?_, ?_⟩
  · exact (c9_handle_plug_switch [("desk", "1.2.3.4")] "lamp" "on" "pw" (netOK 200) 3).1 rfl
  · exact (c9_handle_plug_switch [("desk", "1.2.3.4")] "desk" "sideways" "pw"
      (netOK 200) 3).2.1 "1.2.3.4" rfl (by decide) (by decide)
  · exact ((c9_handle_plug_switch [("desk", "1.2.3.4")] "desk" "on" "pw" (netOK 200) 3).2.2
      "1.2.3.4" { statusCode := 200, body := okAckBody } [] [XNode.elem "CMD" [] [XNode.text "OK"]]
      rfl rfl (by decide) rfl rfl).1

end Ediplug
